import Mathlib

/-!
Shallow embedding of the webrust ORM core ("Orbit"): the fluent SQL query
builder (`src/orbit/builder.rs`), the entity/active-record layer
(`src/orbit/mod.rs`) and the migrator (`src/database/migrator.rs`).

Pure string-building code is translated directly.  The deferred argument
appliers (`Vec<Box<dyn Fn(&mut DbArguments)>>` in the source, each closure
capturing one value and pushing it) are modelled, as the spec itself
suggests, by an ordered list of tagged scalar values: each `Box::new(move
|args| args.add(val.clone()))` pushed in the source corresponds to one
`Value` appended to `argument_appliers` here.  Database execution (sqlx)
is out of scope; the terminal calls' pure parts (SQL text and the argument
list that `build_arguments` produces) are what the theorems speak about.
-/

/-- A deferred bound value.  The source stores closures capturing a generic
`V : Encode + Type`; concretely strings, integers, booleans and NULL flow
through them (floating point is omitted from the model). -/
inductive Value where
  | vStr (s : String)
  | vInt (n : Int)
  | vBool (b : Bool)
  | vNull
deriving DecidableEq

/-- Rendering of a bound value as text, used only by the verification layer
to express "the i-th placeholder receives the i-th binder". -/
def Value.render : Value → String
  | .vStr s => s
  | .vInt n => toString n
  | .vBool b => toString b
  | .vNull => "NULL"

/-- Rust `Vec::join(sep)` / the string-join used by `to_sql`. -/
def joinSep (sep : String) : List String → String
  | [] => ""
  | [x] => x
  | x :: y :: xs => x ++ sep ++ joinSep sep (y :: xs)

/-- `Builder<T>` from `src/orbit/builder.rs`.  Field names follow the
source; `select`/`limit`/`offset` are renamed `selects`/`limitv`/`offsetv`
because the method names (kept verbatim) would collide in Lean. -/
structure Builder where
  table : String
  selects : List String
  joins : List String
  wheres : List String
  order : List String
  limitv : Option Int
  offsetv : Option Int
  argument_appliers : List Value
deriving DecidableEq

/-- `Builder::new`. -/
def Builder.new (table : String) : Builder :=
  { table := table, selects := ["*"], joins := [], wheres := [], order := [],
    limitv := none, offsetv := none, argument_appliers := [] }

/-- `Builder::select` — replaces the projection list. -/
def Builder.select (b : Builder) (columns : List String) : Builder :=
  { b with selects := columns }

/-- `Builder::where_raw`. -/
def Builder.where_raw (b : Builder) (clause : String) : Builder :=
  { b with wheres := b.wheres ++ [clause] }

/-- `Builder::where` (`r#where` in the source; `where` is a Lean keyword). -/
def Builder.where_ (b : Builder) (col cop : String) (val : Value) : Builder :=
  { b with wheres := b.wheres ++ [col ++ " " ++ cop ++ " ?"],
           argument_appliers := b.argument_appliers ++ [val] }

/-- `Builder::where_eq`. -/
def Builder.where_eq (b : Builder) (col : String) (val : Value) : Builder :=
  b.where_ col ("=") val

/-- `Builder::order_by`. -/
def Builder.order_by (b : Builder) (column direction : String) : Builder :=
  { b with order := b.order ++ [column ++ " " ++ direction] }

/-- `Builder::limit`. -/
def Builder.limit (b : Builder) (l : Int) : Builder :=
  { b with limitv := some l }

/-- `Builder::offset`. -/
def Builder.offset (b : Builder) (o : Int) : Builder :=
  { b with offsetv := some o }

/-- `Builder::join`. -/
def Builder.join (b : Builder) (table first cop second : String) : Builder :=
  { b with joins := b.joins ++ ["INNER JOIN " ++ table ++ " ON " ++ first ++ " " ++ cop ++ " " ++ second] }

/-- `Builder::left_join`. -/
def Builder.left_join (b : Builder) (table first cop second : String) : Builder :=
  { b with joins := b.joins ++ ["LEFT JOIN " ++ table ++ " ON " ++ first ++ " " ++ cop ++ " " ++ second] }

/-- `Builder::to_sql`. -/
def Builder.to_sql (b : Builder) : String :=
  let sql := "SELECT " ++ joinSep (", ") b.selects ++ " FROM " ++ b.table
  let sql := if b.joins.isEmpty then sql else sql ++ " " ++ joinSep (" ") b.joins
  let sql := if b.wheres.isEmpty then sql else sql ++ " WHERE " ++ joinSep (" AND ") b.wheres
  let sql := if b.order.isEmpty then sql else sql ++ " ORDER BY " ++ joinSep (", ") b.order
  let sql := match b.limitv with
    | some l => sql ++ " LIMIT " ++ toString l
    | none => sql
  let sql := match b.offsetv with
    | some o => sql ++ " OFFSET " ++ toString o
    | none => sql
  sql

/-- `Builder::build_arguments` — applies every queued applier in order to an
initially empty argument pack; in the model this realizes exactly the
`argument_appliers` list. -/
def Builder.build_arguments (b : Builder) : List Value :=
  b.argument_appliers

/-- `Builder::where_exists`. -/
def Builder.where_exists (b sub : Builder) : Builder :=
  { b with wheres := b.wheres ++ ["EXISTS (" ++ sub.to_sql ++ ")"],
           argument_appliers := b.argument_appliers ++ sub.argument_appliers }

/-- `Builder::distinct` — prefixes the first select expression unless already
prefixed. -/
def Builder.distinct (b : Builder) : Builder :=
  match b.selects with
  | [] => b
  | first :: rest =>
    if first.startsWith ("DISTINCT") then b
    else { b with selects := ("DISTINCT " ++ first) :: rest }

/-- `Builder::or_where` — when a predicate already exists, the last clause is
popped and re-pushed with ` OR col op ?` spliced on; otherwise the clause is
pushed exactly as `where` would. -/
def Builder.or_where (b : Builder) (col cop : String) (val : Value) : Builder :=
  let wheres :=
    if b.wheres.isEmpty then
      b.wheres ++ [col ++ " " ++ cop ++ " ?"]
    else
      b.wheres.dropLast ++ [(b.wheres.getLastD ("")) ++ " OR " ++ col ++ " " ++ cop ++ " ?"]
  { b with wheres := wheres, argument_appliers := b.argument_appliers ++ [val] }

/-- `Builder::where_in`. -/
def Builder.where_in (b : Builder) (col : String) (values : List Value) : Builder :=
  let placeholders := joinSep (", ") (values.map (fun _ => "?"))
  { b with wheres := b.wheres ++ [col ++ " IN (" ++ placeholders ++ ")"],
           argument_appliers := b.argument_appliers ++ values }

/-- `Builder::where_not_in`. -/
def Builder.where_not_in (b : Builder) (col : String) (values : List Value) : Builder :=
  let placeholders := joinSep (", ") (values.map (fun _ => "?"))
  { b with wheres := b.wheres ++ [col ++ " NOT IN (" ++ placeholders ++ ")"],
           argument_appliers := b.argument_appliers ++ values }

/-- `Builder::where_null`. -/
def Builder.where_null (b : Builder) (col : String) : Builder :=
  { b with wheres := b.wheres ++ [col ++ " IS NULL"] }

/-- `Builder::where_not_null`. -/
def Builder.where_not_null (b : Builder) (col : String) : Builder :=
  { b with wheres := b.wheres ++ [col ++ " IS NOT NULL"] }

/-- `Builder::where_between`. -/
def Builder.where_between (b : Builder) (col : String) (mn mx : Value) : Builder :=
  { b with wheres := b.wheres ++ [col ++ " BETWEEN ? AND ?"],
           argument_appliers := b.argument_appliers ++ [mn, mx] }

/-- `Builder::latest`. -/
def Builder.latest (b : Builder) (column : String) : Builder :=
  { b with order := b.order ++ [column ++ " DESC"] }

/-- `Builder::oldest`. -/
def Builder.oldest (b : Builder) (column : String) : Builder :=
  { b with order := b.order ++ [column ++ " ASC"] }

/-- `Builder::group_by` — note the source pushes `GROUP BY col` into the
`wheres` vector. -/
def Builder.group_by (b : Builder) (columns : List String) : Builder :=
  { b with wheres := b.wheres ++ columns.map (fun c => "GROUP BY " ++ c) }

/-- `Builder::having` — note the source pushes `HAVING col op ?` into the
`wheres` vector, sharing the deferred-binding mechanism. -/
def Builder.having (b : Builder) (col cop : String) (val : Value) : Builder :=
  { b with wheres := b.wheres ++ ["HAVING " ++ col ++ " " ++ cop ++ " ?"],
           argument_appliers := b.argument_appliers ++ [val] }

/-!
Entity layer: the `Orbit` trait of `src/orbit/mod.rs`.  Its static
configuration (`table_name`, `primary_key`, `TIMESTAMPS`, `SOFT_DELETES`)
is modelled as a metadata record; the trait's builder-factory methods
become functions over that record.  An entity instance is represented by
its `id()` value, the only instance data those methods consult.
-/

/-- Static configuration of an `Orbit` entity type, with the trait's
defaults. -/
structure OrbitMeta where
  table_name : String
  primary_key : String := "id"
  timestamps : Bool := true
  soft_deletes : Bool := false
deriving DecidableEq

/-- `Orbit::query` — pre-filters by `deleted_at IS NULL` when the entity has
soft deletes enabled. -/
def OrbitMeta.query (m : OrbitMeta) : Builder :=
  let b := Builder.new m.table_name
  if m.soft_deletes then b.where_null ("deleted_at") else b

/-- `Orbit::with_trashed` — a fresh builder with no filter. -/
def OrbitMeta.with_trashed (m : OrbitMeta) : Builder :=
  Builder.new m.table_name

/-- `Orbit::has_many::<R>` for an owner whose `id()` is `self_id`. -/
def OrbitMeta.has_many (rmeta : OrbitMeta) (self_id : Int) (foreign_key : String) : Builder :=
  rmeta.query.where_eq foreign_key (.vInt self_id)

/-- `Orbit::has_one::<R>`. -/
def OrbitMeta.has_one (rmeta : OrbitMeta) (self_id : Int) (foreign_key : String) : Builder :=
  rmeta.query.where_eq foreign_key (.vInt self_id)

/-- `Orbit::belongs_to_many::<R>` — `rmeta` is the related type `R`,
`self_id` the owner's `id()`. -/
def OrbitMeta.belongs_to_many (rmeta : OrbitMeta) (self_id : Int)
    (pivot_table foreign_key related_key : String) : Builder :=
  let related_table := rmeta.table_name
  let related_pk := rmeta.primary_key
  ((rmeta.query.select ([related_table ++ ".*"])).join pivot_table
      (related_table ++ "." ++ related_pk) ("=") (pivot_table ++ "." ++ related_key)).where_eq
    (pivot_table ++ "." ++ foreign_key) (.vInt self_id)

/-- `Orbit::morph_one::<R>` — `self_table` is `Self::table_name()`. -/
def OrbitMeta.morph_one (rmeta : OrbitMeta) (self_table : String) (self_id : Int)
    (id_column type_column : String) : Builder :=
  (rmeta.query.where_eq id_column (.vInt self_id)).where_eq type_column (.vStr self_table)

/-- `Orbit::morph_many::<R>` — identical shape to `morph_one`. -/
def OrbitMeta.morph_many (rmeta : OrbitMeta) (self_table : String) (self_id : Int)
    (id_column type_column : String) : Builder :=
  (rmeta.query.where_eq id_column (.vInt self_id)).where_eq type_column (.vStr self_table)

/-!
`Orbit::create` / `Orbit::update`: the payload goes through
`serde_json::to_value(data).unwrap()` and then
`value.as_object().expect("Data must be an object")`.  The payload is
modelled as an already-serialized JSON value; the `expect` panic on a
non-object payload is modelled by `Option.none`.
-/

/-- serde_json values (floating-point numbers omitted). -/
inductive Json where
  | jNull
  | jBool (b : Bool)
  | jNum (n : Int)
  | jStr (s : String)
  | jArr (items : List Json)
  | jObj (fields : List (String × Json))

/-- `serde_json::to_string` on a value (used only for the `_ =>
args.add(v.to_string())` fallback arm of create/update). -/
def Json.render : Json → String
  | .jNull => "null"
  | .jBool true => "true"
  | .jBool false => "false"
  | .jNum n => toString n
  | .jStr s => "\x22" ++ s ++ "\x22"
  | .jArr items => "[" ++ joinSep (",") (items.attach.map (fun x => x.1.render)) ++ "]"
  | .jObj fields =>
      "\x7b" ++
        joinSep (",") (fields.attach.map (fun x => "\x22" ++ x.1.1 ++ "\x22:" ++ x.1.2.render)) ++
      "\x7d"
termination_by j => sizeOf j
decreasing_by
  · have h := List.sizeOf_lt_of_mem x.2
    simp only [Json.jArr.sizeOf_spec]
    omega
  · obtain ⟨⟨k, v⟩, hmem⟩ := x
    have h := List.sizeOf_lt_of_mem hmem
    simp only [Prod.mk.sizeOf_spec] at h
    simp only [Json.jObj.sizeOf_spec]
    omega

/-- Is the value a JSON object (`Value::as_object().is_some()`)? -/
def Json.is_object : Json → Bool
  | .jObj _ => true
  | _ => false

/-- `serde_json::Map::insert` on the map's iteration sequence: replace the
value under an existing key, else add the entry. -/
def jsonInsert (fields : List (String × Json)) (k : String) (v : Json) : List (String × Json) :=
  if fields.any (fun p => p.1 == k) then
    fields.map (fun p => if p.1 == k then (k, v) else p)
  else
    fields ++ [(k, v)]

/-- The per-field argument conversion in `Orbit::create`/`update`: strings,
integers and booleans bind directly, `Null` binds a NULL, anything else
binds its `to_string()`. -/
def jsonArg : Json → Value
  | .jStr s => .vStr s
  | .jNum n => .vInt n
  | .jBool b => .vBool b
  | .jNull => .vNull
  | v => .vStr v.render

/-- Pure core of `Orbit::create` (src/orbit/mod.rs lines 59-104): timestamp
injection, the object check, and assembly of the INSERT statement with its
argument list.  `now` stands for `chrono::Local::now()...to_string()`.
`none` models the `.expect("Data must be an object")` panic. -/
def OrbitMeta.create_core (m : OrbitMeta) (now : String) (data : Json) :
    Option (String × List Value) :=
  let value :=
    match data with
    | .jObj fields =>
        if m.timestamps then
          Json.jObj (jsonInsert (jsonInsert fields ("created_at") (.jStr now)) ("updated_at") (.jStr now))
        else
          Json.jObj fields
    | v => v
  match value with
  | .jObj fields =>
    let keys := fields.map (fun p => p.1)
    let placeholders := fields.map (fun _ => "?")
    let args := fields.map (fun p => jsonArg p.2)
    some ("INSERT INTO " ++ m.table_name ++ " (" ++ joinSep (", ") keys ++
            ") VALUES (" ++ joinSep (", ") placeholders ++ ")",
          args)
  | _ => none

/-- Pure core of `Orbit::update` (src/orbit/mod.rs lines 106-150): injects
`updated_at`, checks the object shape, assembles the UPDATE statement; the
owner's id is appended after all payload arguments for the WHERE clause.
`none` models the `.expect("Data must be an object")` panic. -/
def OrbitMeta.update_core (m : OrbitMeta) (self_id : Int) (now : String) (data : Json) :
    Option (String × List Value) :=
  let value :=
    match data with
    | .jObj fields =>
        if m.timestamps then
          Json.jObj (jsonInsert fields ("updated_at") (.jStr now))
        else
          Json.jObj fields
    | v => v
  match value with
  | .jObj fields =>
    let updates := fields.map (fun p => p.1 ++ " = ?")
    let args := fields.map (fun p => jsonArg p.2) ++ [.vInt self_id]
    some ("UPDATE " ++ m.table_name ++ " SET " ++ joinSep (", ") updates ++
            " WHERE " ++ m.primary_key ++ " = ?",
          args)
  | _ => none

/-- The error values `Orbit`/`Builder` operations return on expected
failure paths (`sqlx::Error::Configuration`, `sqlx::Error::RowNotFound`). -/
inductive DbErr where
  | configuration (msg : String)
  | rowNotFound
deriving DecidableEq

/-- `Orbit::find_or_fail`: zero rows becomes the typed `RowNotFound`. -/
def find_or_fail_core {α : Type} (row : Option α) : Except DbErr α :=
  match row with
  | some model => .ok model
  | none => .error .rowNotFound

/-- Connection resolution shared by the terminals (`get`/`first`/
`paginate`/`create`/...): an unresolved connection becomes the typed
`Configuration` error. -/
def resolve_connection_core {α : Type} (conn : Option α) : Except DbErr α :=
  match conn with
  | some pool => .ok pool
  | none => .error (.configuration ("No database connection found"))

/-!
Migrator (`src/database/migrator.rs`).  The database-facing parts are
modelled on the tracking-table state: a list of `(migration, batch)` rows
in insertion order, and the list of migration files loaded from disk.
-/

/-- `MigrationFile` from the source. -/
structure MigrationFile where
  name : String
  up_sql : String
  down_sql : String
deriving DecidableEq

/-- One row of the `migrations` tracking table. -/
structure MigrationRecord where
  migration : String
  batch : Int
deriving DecidableEq

/-- `SELECT MAX(batch) FROM migrations`. -/
def maxBatch : List MigrationRecord → Option Int
  | [] => none
  | r :: rs =>
    match maxBatch rs with
    | none => some r.batch
    | some b => some (max r.batch b)

/-- State threaded through the rollback loop: remaining tracking rows, DOWN
statements executed so far (in execution order), and warnings printed for
missing files. -/
structure RollbackState where
  records : List MigrationRecord
  downs : List String
  warnings : List String
deriving DecidableEq

/-- One iteration of the rollback loop (src/database/migrator.rs lines
136-152): a present file executes its non-empty DOWN section and deletes
the tracking rows with that migration name; a missing file only records a
warning — the tracking row is kept ("Skipping"). -/
def rollback_step (files : List MigrationFile) (st : RollbackState) (name : String) :
    RollbackState :=
  match files.find? (fun f => f.name == name) with
  | some mfile =>
    { records := st.records.filter (fun r => r.migration != name),
      downs := st.downs ++ (if mfile.down_sql.isEmpty then [] else [mfile.down_sql]),
      warnings := st.warnings }
  | none =>
    { st with warnings := st.warnings ++ [name] }

/-- Pure core of `Migrator::rollback` (src/database/migrator.rs lines
111-159): selects the names recorded under the highest batch, then walks
them in reverse, rolling back those whose file is present. -/
def Migrator.rollback_core (records : List MigrationRecord) (files : List MigrationFile) :
    RollbackState :=
  match maxBatch records with
  | none => { records := records, downs := [], warnings := [] }
  | some batch =>
    let to_rollback := (records.filter (fun r => r.batch == batch)).map (fun r => r.migration)
    to_rollback.reverse.foldl (rollback_step files)
      { records := records, downs := [], warnings := [] }

/-- The exact DDL executed by `Migrator::ensure_migration_table`
(src/database/migrator.rs lines 28-32). -/
def migration_table_ddl : String :=
  "CREATE TABLE migrations (
                id BIGINT AUTO_INCREMENT PRIMARY KEY,
                migration VARCHAR(255) NOT NULL,
                batch INT NOT NULL
            )"

/-- Pure core of `Migrator::ensure_migration_table`: when the `SHOW TABLES`
probe finds no `migrations` table the DDL is executed, otherwise nothing
is. -/
def Migrator.ensure_migration_table_core (table_exists : Bool) : Option String :=
  if table_exists then none else some migration_table_ddl

/-- The Migrator's connection-resolution step, shared by
`ensure_migration_table`, `run` and `rollback` (src/database/migrator.rs
lines 22, 73, 113): the pool comes from
`default_connection().expect("No default connection")` resp. `.unwrap()`.
A missing default connection therefore panics — modelled by the outer
`none` — and the `Result` these functions return never carries a typed
error for this condition. -/
def Migrator.default_connection_core {α : Type} (default_conn : Option α) :
    Option (Except DbErr α) :=
  match default_conn with
  | some pool => some (Except.ok pool)
  | none => none

/-!
Placeholder accounting.  `cntS s` counts the `?` placeholder characters of
`s`; `fillS s vs` substitutes the rendered binder values for the
placeholders left to right (surplus placeholders stay, surplus values are
dropped).  "The placeholders match the binders in count and order" is then
expressed as: `cntS sql = binders.length` and `fillS sql binders` equals
the query rendered with every value written directly in the position of
its placeholder.
-/

def cntQ (cs : List Char) : Nat := cs.countP (fun c => c == '?')

def fillQ : List Char → List Value → List Char
  | [], _ => []
  | c :: cs, vs =>
    if c == '?' then
      match vs with
      | [] => c :: fillQ cs []
      | v :: vs => v.render.toList ++ fillQ cs vs
    else
      c :: fillQ cs vs

def cntS (s : String) : Nat := cntQ s.toList

def fillS (s : String) (vs : List Value) : String := String.mk (fillQ s.toList vs)

/-- A string free of placeholder characters (sane identifiers). -/
def noQb (s : String) : Bool := decide (cntS s = 0)

theorem noQb_eq {s : String} (h : noQb s = true) : cntS s = 0 :=
  of_decide_eq_true h

theorem sToList_append (a b : String) : (a ++ b).toList = a.toList ++ b.toList := rfl

theorem sAppend_assoc (a b c : String) : a ++ b ++ c = a ++ (b ++ c) := by
  cases a with
  | mk la =>
    cases b with
    | mk lb =>
      cases c with
      | mk lc =>
        show String.mk (la ++ lb ++ lc) = String.mk (la ++ (lb ++ lc))
        rw [List.append_assoc]

theorem cntS_append (a b : String) : cntS (a ++ b) = cntS a + cntS b := by
  simp [cntS, cntQ, sToList_append, List.countP_append]

theorem fillQ_vnil : ∀ cs : List Char, fillQ cs [] = cs := by
  intro cs
  induction cs with
  | nil => rfl
  | cons c cs ih => by_cases hc : c == '?' <;> simp [fillQ, hc, ih]

theorem fillQ_append : ∀ (a : List Char) (vs : List Value) (b : List Char) (ws : List Value),
    cntQ a = vs.length → fillQ (a ++ b) (vs ++ ws) = fillQ a vs ++ fillQ b ws := by
  intro a
  induction a with
  | nil =>
    intro vs b ws h
    have hv : vs = [] := List.length_eq_zero.mp h.symm
    subst hv
    simp [fillQ]
  | cons c a ih =>
    intro vs b ws h
    by_cases hc : c == '?'
    · have hc' : c = '?' := by simpa using hc
      subst hc'
      rw [cntQ, List.countP_cons] at h
      simp only [beq_self_eq_true, if_pos] at h
      cases vs with
      | nil => simp at h
      | cons v vs =>
        have hcnt : cntQ a = vs.length := by
          rw [cntQ]
          simp only [List.length_cons] at h
          omega
        simp only [List.cons_append, fillQ, beq_self_eq_true, if_pos, List.append_eq]
        rw [ih vs b ws hcnt, List.append_assoc]
    · have hcnt : cntQ a = vs.length := by
        rw [cntQ, List.countP_cons] at h
        simp only [hc, if_false] at h
        simpa [cntQ] using h
      simp only [List.cons_append, fillQ, hc, if_false, List.append_eq]
      rw [ih vs b ws hcnt]
      simp

theorem smk_toList (s : String) : String.mk s.toList = s := rfl

theorem fillS_append (a b : String) (vs ws : List Value) (h : cntS a = vs.length) :
    fillS (a ++ b) (vs ++ ws) = fillS a vs ++ fillS b ws := by
  show String.mk (fillQ (a ++ b).toList (vs ++ ws)) = _
  rw [sToList_append, fillQ_append a.toList vs b.toList ws h]
  rfl

theorem fillS_vnil (s : String) : fillS s [] = s := by
  show String.mk (fillQ s.toList []) = s
  rw [fillQ_vnil, smk_toList]

theorem fillS_noq (a b : String) (vs : List Value) (h : cntS a = 0) :
    fillS (a ++ b) vs = a ++ fillS b vs := by
  have := fillS_append a b [] vs (by simpa using h)
  simpa [fillS_vnil] using this

theorem fillS_q (v : Value) : fillS ("?") [v] = v.render := by
  show String.mk (fillQ ['?'] [v]) = v.render
  simp [fillQ]

/-!
`Aligned cs vs ds` — the where-clauses `cs` own the binder list `vs`,
clause by clause in order: `vs` splits into consecutive groups, one per
clause, each group exactly filling its clause's placeholders, and `ds` is
the clause list with every placeholder replaced by its binder's rendering.
-/

def Aligned : List String → List Value → List String → Prop
  | [], vs, [] => vs = []
  | c :: cs, vs, d :: ds =>
      ∃ ws rest, vs = ws ++ rest ∧ cntS c = ws.length ∧ fillS c ws = d ∧ Aligned cs rest ds
  | _ :: _, _, [] => False
  | [], _, _ :: _ => False

theorem aligned_nil : ∀ {vs : List Value} {ds : List String},
    Aligned [] vs ds → ds = [] ∧ vs = [] := by
  intro vs ds h
  cases ds with
  | nil => exact ⟨rfl, h⟩
  | cons d ds => exact h.elim

theorem aligned_cons_ds : ∀ {c : String} {cs : List String} {vs : List Value} {ds : List String},
    Aligned (c :: cs) vs ds → ∃ d ds', ds = d :: ds' := by
  intro c cs vs ds h
  cases ds with
  | nil => exact h.elim
  | cons d ds' => exact ⟨d, ds', rfl⟩

theorem aligned_snoc : ∀ (cs : List String) (vs : List Value) (ds : List String)
    (c : String) (ws : List Value) (d : String),
    Aligned cs vs ds → cntS c = ws.length → fillS c ws = d →
    Aligned (cs ++ [c]) (vs ++ ws) (ds ++ [d]) := by
  intro cs
  induction cs with
  | nil =>
    intro vs ds c ws d h hc hf
    obtain ⟨hds, hvs⟩ := aligned_nil h
    subst hds; subst hvs
    exact ⟨ws, [], by simp, hc, hf, rfl⟩
  | cons c' cs ih =>
    intro vs ds c ws d h hc hf
    obtain ⟨d', ds', rfl⟩ := aligned_cons_ds h
    obtain ⟨ws', rest, hvs, hc', hf', htail⟩ := h
    subst hvs
    exact ⟨ws', rest ++ ws, by simp, hc', hf', ih rest ds' c ws d htail hc hf⟩

theorem aligned_snoc_inv : ∀ (cs : List String) (c : String) (vs : List Value) (ds : List String),
    Aligned (cs ++ [c]) vs ds →
    ∃ ds' d rest ws, ds = ds' ++ [d] ∧ vs = rest ++ ws ∧
      Aligned cs rest ds' ∧ cntS c = ws.length ∧ fillS c ws = d := by
  intro cs
  induction cs with
  | nil =>
    intro c vs ds h
    obtain ⟨d, ds₂, rfl⟩ := aligned_cons_ds (by simpa using h)
    obtain ⟨ws, rest, hvs, hc, hf, htail⟩ := h
    obtain ⟨hds₂, hrest⟩ := aligned_nil htail
    subst hds₂; subst hrest
    exact ⟨[], d, [], ws, rfl, by simpa using hvs, rfl, hc, hf⟩
  | cons c' cs ih =>
    intro c vs ds h
    obtain ⟨d', ds₂, rfl⟩ := aligned_cons_ds (by simpa using h)
    obtain ⟨ws', rest', hvs, hc', hf', htail⟩ := h
    obtain ⟨ds₃, d, rest'', ws, hds₂, hrest', htail', hc, hf⟩ := ih c rest' ds₂ htail
    subst hds₂; subst hrest'; subst hvs
    exact ⟨d' :: ds₃, d, ws' ++ rest'', ws, rfl, by simp,
      ⟨ws', rest'', rfl, hc', hf', htail'⟩, hc, hf⟩

theorem aligned_join : ∀ (sep : String) (cs : List String) (vs : List Value) (ds : List String),
    cntS sep = 0 → Aligned cs vs ds →
    cntS (joinSep sep cs) = vs.length ∧ fillS (joinSep sep cs) vs = joinSep sep ds := by
  intro sep cs
  induction cs with
  | nil =>
    intro vs ds hsep h
    obtain ⟨hds, hvs⟩ := aligned_nil h
    subst hds; subst hvs
    constructor
    · rfl
    · exact fillS_vnil (joinSep sep [])
  | cons c cs ih =>
    intro vs ds hsep h
    obtain ⟨d, ds', rfl⟩ := aligned_cons_ds h
    obtain ⟨ws, rest, hvs, hc, hf, htail⟩ := h
    subst hvs
    cases cs with
    | nil =>
      obtain ⟨hds', hrest⟩ := aligned_nil htail
      subst hds'; subst hrest
      constructor
      · simpa [joinSep] using hc
      · simpa [joinSep] using hf
    | cons c₂ cs₂ =>
      obtain ⟨d₂, ds₂, rfl⟩ := aligned_cons_ds htail
      obtain ⟨hcnt2, hfill2⟩ := ih rest (d₂ :: ds₂) hsep htail
      constructor
      · show cntS (c ++ sep ++ joinSep sep (c₂ :: cs₂)) = _
        rw [cntS_append, cntS_append, hsep, hc, hcnt2]
        simp
      · show fillS (c ++ sep ++ joinSep sep (c₂ :: cs₂)) (ws ++ rest) = _
        have h₁ : cntS (c ++ sep) = ws.length := by
          rw [cntS_append, hsep, hc]
          omega
        rw [fillS_append (c ++ sep) (joinSep sep (c₂ :: cs₂)) ws rest h₁]
        have h₂ : fillS (c ++ sep) ws = d ++ sep := by
          have := fillS_append c sep ws [] hc
          simpa [fillS_vnil, hf] using this
        rw [h₂, hfill2]
        show d ++ sep ++ joinSep sep (d₂ :: ds₂) = joinSep sep (d :: d₂ :: ds₂)
        rfl

/-!
The predicate-adding calls named by the spec's invariant: `where`,
`where_eq`, `or_where`, `where_in`, `where_not_in`, `where_between`,
`where_null`, `where_not_null`, `where_exists`, `having` (`where_raw`
excluded).  A `where_exists` argument is itself a builder produced by such
a sequence from `Builder::new`, carried as table plus call list.
-/

inductive Op where
  | op_where (col cop : String) (val : Value)
  | op_where_eq (col : String) (val : Value)
  | op_or_where (col cop : String) (val : Value)
  | op_where_in (col : String) (values : List Value)
  | op_where_not_in (col : String) (values : List Value)
  | op_where_between (col : String) (mn mx : Value)
  | op_where_null (col : String)
  | op_where_not_null (col : String)
  | op_where_exists (sub_table : String) (sub_ops : List Op)
  | op_having (col cop : String) (val : Value)

mutual

/-- Apply one builder call. -/
def applyOp (b : Builder) : Op → Builder
  | .op_where col cop v => b.where_ col cop v
  | .op_where_eq col v => b.where_eq col v
  | .op_or_where col cop v => b.or_where col cop v
  | .op_where_in col vs => b.where_in col vs
  | .op_where_not_in col vs => b.where_not_in col vs
  | .op_where_between col mn mx => b.where_between col mn mx
  | .op_where_null col => b.where_null col
  | .op_where_not_null col => b.where_not_null col
  | .op_where_exists t ops => b.where_exists (applyOps (Builder.new t) ops)
  | .op_having col cop v => b.having col cop v

/-- Apply a whole call sequence left to right. -/
def applyOps (b : Builder) : List Op → Builder
  | [] => b
  | op :: rest => applyOps (applyOp b op) rest

end

mutual

/-- The reference rendering: the same call, but with the bound value written
directly where its `?` placeholder would sit (values inline, no binders).
This is the verification-side yardstick the filled-in query is compared
against. -/
def applyOpInline (b : Builder) : Op → Builder
  | .op_where col cop v =>
      { b with wheres := b.wheres ++ [col ++ " " ++ cop ++ " " ++ v.render] }
  | .op_where_eq col v =>
      { b with wheres := b.wheres ++ [col ++ " " ++ ("=") ++ " " ++ v.render] }
  | .op_or_where col cop v =>
      let wheres :=
        if b.wheres.isEmpty then
          b.wheres ++ [col ++ " " ++ cop ++ " " ++ v.render]
        else
          b.wheres.dropLast ++
            [(b.wheres.getLastD ("")) ++ " OR " ++ col ++ " " ++ cop ++ " " ++ v.render]
      { b with wheres := wheres }
  | .op_where_in col vs =>
      { b with wheres := b.wheres ++ [col ++ " IN (" ++ joinSep (", ") (vs.map Value.render) ++ ")"] }
  | .op_where_not_in col vs =>
      { b with wheres := b.wheres ++ [col ++ " NOT IN (" ++ joinSep (", ") (vs.map Value.render) ++ ")"] }
  | .op_where_between col mn mx =>
      { b with wheres := b.wheres ++ [col ++ " BETWEEN " ++ mn.render ++ " AND " ++ mx.render] }
  | .op_where_null col => b.where_null col
  | .op_where_not_null col => b.where_not_null col
  | .op_where_exists t ops =>
      { b with wheres := b.wheres ++ ["EXISTS (" ++ (applyOpsInline (Builder.new t) ops).to_sql ++ ")"] }
  | .op_having col cop v =>
      { b with wheres := b.wheres ++ ["HAVING " ++ col ++ " " ++ cop ++ " " ++ v.render] }

def applyOpsInline (b : Builder) : List Op → Builder
  | [] => b
  | op :: rest => applyOpsInline (applyOpInline b op) rest

end

mutual

/-- Sanity of the caller-supplied identifier/operator strings: they contain
no `?` character themselves (a `?` smuggled inside a column name would be
read as an extra placeholder by any SQL driver). -/
def opWf : Op → Bool
  | .op_where col cop _ => noQb col && noQb cop
  | .op_where_eq col _ => noQb col
  | .op_or_where col cop _ => noQb col && noQb cop
  | .op_where_in col _ => noQb col
  | .op_where_not_in col _ => noQb col
  | .op_where_between col _ _ => noQb col
  | .op_where_null col => noQb col
  | .op_where_not_null col => noQb col
  | .op_where_exists t ops => noQb t && opsWf ops
  | .op_having col cop _ => noQb col && noQb cop

def opsWf : List Op → Bool
  | [] => true
  | op :: rest => opWf op && opsWf rest

end

/-! Combinators for filling clause strings shape by shape. -/

theorem fillQ_noq_id : ∀ (cs : List Char), cntQ cs = 0 → ∀ vs, fillQ cs vs = cs := by
  intro cs
  induction cs with
  | nil => intro _ vs; rfl
  | cons c cs ih =>
    intro h vs
    rw [cntQ, List.countP_cons] at h
    have hc : (c == '?') = false := by
      cases hcc : c == '?'
      · rfl
      · rw [hcc] at h; simp at h
    have hcs : cntQ cs = 0 := by
      rw [hc] at h
      simpa [cntQ] using h
    simp [fillQ, hc, ih hcs]

theorem fillS_id (a : String) (vs : List Value) (h : cntS a = 0) : fillS a vs = a := by
  show String.mk (fillQ a.toList vs) = a
  rw [fillQ_noq_id a.toList h vs, smk_toList]

theorem fillS_all_left (a b : String) (vs : List Value) (h : cntS a = vs.length) :
    fillS (a ++ b) vs = fillS a vs ++ b := by
  have := fillS_append a b vs [] h
  simpa [fillS_vnil] using this

theorem fillS_qcons (rest : String) (v : Value) (vs : List Value) :
    fillS (("?") ++ rest) (v :: vs) = v.render ++ fillS rest vs := by
  show String.mk (fillQ (("?" : String) ++ rest).toList (v :: vs)) = _
  have h : (("?" : String) ++ rest).toList = '?' :: rest.toList := rfl
  rw [h]
  simp only [fillQ, beq_self_eq_true, if_pos]
  rfl

/-- The clause shape `p ++ " ?"` that `where`/`where_eq`/`having` produce
(and `or_where` with `p` the spliced-up previous clause). -/
theorem clause_q (p : String) (ws : List Value) (v : Value) (hp : cntS p = ws.length) :
    cntS (p ++ " ?") = ws.length + 1 ∧
    fillS (p ++ " ?") (ws ++ [v]) = fillS p ws ++ " " ++ v.render := by
  have hq : (" ?" : String) = (" ") ++ ("?") := by decide
  have hc1 : cntS (" ?") = 1 := by decide
  have hc0 : cntS (" ") = 0 := by decide
  constructor
  · rw [cntS_append, hp, hc1]
  · rw [hq, ← sAppend_assoc]
    have h1 : cntS (p ++ " ") = ws.length := by
      rw [cntS_append, hp, hc0]
      omega
    rw [fillS_append (p ++ (" ")) ("?") ws [v] h1, fillS_q,
        fillS_all_left p (" ") ws hp]

/-- Placeholder lists built by `where_in`/`where_not_in`: one `?` per value,
comma-separated, filled by the values in iteration order. -/
theorem placeholders_fill : ∀ vs : List Value,
    cntS (joinSep (", ") (vs.map (fun _ => "?"))) = vs.length ∧
    fillS (joinSep (", ") (vs.map (fun _ => "?"))) vs = joinSep (", ") (vs.map Value.render) := by
  intro vs
  induction vs with
  | nil => exact ⟨rfl, fillS_vnil _⟩
  | cons v vs ih =>
    cases vs with
    | nil =>
      constructor
      · rfl
      · show fillS ("?") [v] = v.render
        exact fillS_q v
    | cons v₂ vs₂ =>
      obtain ⟨ihc, ihf⟩ := ih
      constructor
      · show cntS (("?") ++ (", ") ++ joinSep (", ") ((v₂ :: vs₂).map (fun _ => "?"))) = _
        rw [cntS_append, cntS_append, ihc]
        have e1 : cntS ("?") = 1 := by decide
        have e2 : cntS (", ") = 0 := by decide
        rw [e1, e2]
        simp
        omega
      · show fillS (("?") ++ (", ") ++ joinSep (", ") ((v₂ :: vs₂).map (fun _ => "?")))
            (v :: v₂ :: vs₂) = _
        rw [sAppend_assoc,
            fillS_qcons ((", ") ++ joinSep (", ") ((v₂ :: vs₂).map (fun _ => "?"))) v (v₂ :: vs₂),
            fillS_noq (", ") _ _ (by decide), ihf]
        show _ = v.render ++ (", ") ++ joinSep (", ") ((v₂ :: vs₂).map Value.render)
        rw [sAppend_assoc]

/-!
Simulation invariant for the placeholder/binder theorem: `b` is the real
builder, `ib` its inline-rendered counterpart.  The spec's invariant
quantifies over predicate-adding calls only, so both builders keep the
fresh `Builder::new` shape outside the where-clauses.
-/

def SimpleShape (b : Builder) : Prop :=
  b.selects = ["*"] ∧ b.joins = [] ∧ b.order = [] ∧ b.limitv = none ∧ b.offsetv = none

def SimInv (b ib : Builder) : Prop :=
  SimpleShape b ∧ SimpleShape ib ∧ ib.table = b.table ∧ cntS b.table = 0 ∧
  Aligned b.wheres b.argument_appliers ib.wheres

theorem inv_new (t : String) (h : cntS t = 0) : SimInv (Builder.new t) (Builder.new t) := by
  refine ⟨⟨rfl, rfl, rfl, rfl, rfl⟩, ⟨rfl, rfl, rfl, rfl, rfl⟩, rfl, h, ?_⟩
  show ([] : List Value) = []
  rfl

/-- Appending one clause (with its binder group and inline form) preserves
the invariant. -/
theorem inv_push (b ib : Builder) (h : SimInv b ib) (c : String) (ws : List Value) (d : String)
    (hc : cntS c = ws.length) (hf : fillS c ws = d) :
    SimInv { b with wheres := b.wheres ++ [c], argument_appliers := b.argument_appliers ++ ws }
        { ib with wheres := ib.wheres ++ [d] } := by
  obtain ⟨hs, hsi, htab, hnq, hal⟩ := h
  exact ⟨hs, hsi, htab, hnq, aligned_snoc b.wheres b.argument_appliers ib.wheres c ws d hal hc hf⟩

theorem inv_to_sql (b ib : Builder) (h : SimInv b ib) :
    cntS b.to_sql = b.argument_appliers.length ∧
    fillS b.to_sql b.argument_appliers = ib.to_sql := by
  obtain ⟨⟨s1, s2, s3, s4, s5⟩, ⟨t1, t2, t3, t4, t5⟩, htab, hnq, hal⟩ := h
  cases hw : b.wheres with
  | nil =>
    rw [hw] at hal
    obtain ⟨hds, hvs⟩ := aligned_nil hal
    have hbs : b.to_sql = "SELECT " ++ joinSep (", ") ["*"] ++ " FROM " ++ b.table := by
      simp [Builder.to_sql, s1, s2, s3, s4, s5, hw]
    have hibs : ib.to_sql = "SELECT " ++ joinSep (", ") ["*"] ++ " FROM " ++ b.table := by
      simp [Builder.to_sql, t1, t2, t3, t4, t5, hds, htab]
    have hpre : cntS ("SELECT " ++ joinSep (", ") ["*"] ++ " FROM ") = 0 := by decide
    constructor
    · rw [hbs, cntS_append, hpre, hnq, hvs]
      rfl
    · rw [hvs, fillS_vnil, hbs, hibs]
  | cons w ws' =>
    rw [hw] at hal
    obtain ⟨d, ds₂, hds⟩ := aligned_cons_ds hal
    have hbs : b.to_sql =
        "SELECT " ++ joinSep (", ") ["*"] ++ " FROM " ++ b.table ++ " WHERE " ++
          joinSep (" AND ") (w :: ws') := by
      simp [Builder.to_sql, s1, s2, s3, s4, s5, hw]
    have hibs : ib.to_sql =
        "SELECT " ++ joinSep (", ") ["*"] ++ " FROM " ++ b.table ++ " WHERE " ++
          joinSep (" AND ") ib.wheres := by
      rw [hds]
      simp [Builder.to_sql, t1, t2, t3, t4, t5, hds, htab]
    have hpre : cntS ("SELECT " ++ joinSep (", ") ["*"] ++ " FROM ") = 0 := by decide
    have hwh : cntS (" WHERE ") = 0 := by decide
    have hA : cntS ("SELECT " ++ joinSep (", ") ["*"] ++ " FROM " ++ b.table ++ " WHERE ") = 0 := by
      rw [cntS_append, cntS_append, hpre, hnq, hwh]
    obtain ⟨hjc, hjf⟩ := aligned_join (" AND ") (w :: ws') b.argument_appliers ib.wheres
      (by decide) (hds ▸ hal)
    constructor
    · rw [hbs, cntS_append, hA, hjc]
      omega
    · rw [hbs, fillS_noq _ _ _ hA, hjf, hibs]

mutual

theorem inv_step : ∀ (op : Op) (b ib : Builder), SimInv b ib → opWf op = true →
    SimInv (applyOp b op) (applyOpInline ib op)
  | .op_where col cop v, b, ib, h, hwf => by
    simp only [opWf, Bool.and_eq_true] at hwf
    have hcol := noQb_eq hwf.1
    have hcop := noQb_eq hwf.2
    have hsp : cntS (" ") = 0 := by decide
    have hp0 : cntS (col ++ " " ++ cop) = 0 := by
      rw [cntS_append, cntS_append, hcol, hcop, hsp]
    have hq := clause_q (col ++ " " ++ cop) [] v hp0
    exact inv_push b ib h (col ++ " " ++ cop ++ " ?") [v]
      (col ++ " " ++ cop ++ " " ++ v.render)
      (by simpa using hq.1)
      (by simpa [fillS_vnil] using hq.2)
  | .op_where_eq col v, b, ib, h, hwf => by
    simp only [opWf] at hwf
    have hcol := noQb_eq hwf
    have hp0 : cntS (col ++ " " ++ ("=")) = 0 := by
      rw [cntS_append, cntS_append, hcol]
      decide
    have hq := clause_q (col ++ " " ++ ("=")) [] v hp0
    exact inv_push b ib h (col ++ " " ++ ("=") ++ " ?") [v]
      (col ++ " " ++ ("=") ++ " " ++ v.render)
      (by simpa using hq.1)
      (by simpa [fillS_vnil] using hq.2)
  | .op_or_where col cop v, b, ib, h, hwf => by
    simp only [opWf, Bool.and_eq_true] at hwf
    have hcol := noQb_eq hwf.1
    have hcop := noQb_eq hwf.2
    have hsp : cntS (" ") = 0 := by decide
    have hor : cntS (" OR ") = 0 := by decide
    obtain ⟨hs, hsi, htab, hnq, hal⟩ := h
    cases hwemp : b.wheres with
    | nil =>
      rw [hwemp] at hal
      obtain ⟨hds, hvs⟩ := aligned_nil hal
      have hp0 : cntS (col ++ " " ++ cop) = 0 := by
        rw [cntS_append, cntS_append, hcol, hcop, hsp]
      have hq := clause_q (col ++ " " ++ cop) [] v hp0
      refine ⟨hs, hsi, htab, hnq, ?_⟩
      simp only [applyOp, applyOpInline, Builder.or_where, hwemp, hds, hvs,
        List.isEmpty_nil, if_pos, List.nil_append]
      exact ⟨[v], [], by simp, by simpa using hq.1, by simpa [fillS_vnil] using hq.2, rfl⟩
    | cons w ws' =>
      have hne : b.wheres ≠ [] := by rw [hwemp]; simp
      have hLsplit : b.wheres.dropLast ++ [b.wheres.getLast hne] = b.wheres :=
        List.dropLast_append_getLast hne
      rw [← hLsplit] at hal
      obtain ⟨ds', d0, rest, ws0, hds, hvs, hal', hc0, hf0⟩ :=
        aligned_snoc_inv b.wheres.dropLast (b.wheres.getLast hne) b.argument_appliers ib.wheres hal
      have hgl : b.wheres.getLastD ("") = b.wheres.getLast hne := by
        rw [List.getLastD_eq_getLast?, List.getLast?_eq_getLast b.wheres hne]
        rfl
      have hp : cntS (b.wheres.getLast hne ++ " OR " ++ col ++ " " ++ cop) = ws0.length := by
        rw [cntS_append, cntS_append, cntS_append, cntS_append, hc0, hor, hcol, hsp, hcop]
        omega
      have hfillp : fillS (b.wheres.getLast hne ++ " OR " ++ col ++ " " ++ cop) ws0 =
          d0 ++ " OR " ++ col ++ " " ++ cop := by
        rw [fillS_all_left _ cop ws0 (by rw [cntS_append, cntS_append, cntS_append, hc0, hor, hcol, hsp]; omega),
            fillS_all_left _ (" ") ws0 (by rw [cntS_append, cntS_append, hc0, hor, hcol]; omega),
            fillS_all_left _ col ws0 (by rw [cntS_append, hc0, hor]; omega),
            fillS_all_left _ (" OR ") ws0 hc0, hf0]
      have hq := clause_q (b.wheres.getLast hne ++ " OR " ++ col ++ " " ++ cop) ws0 v hp
      refine ⟨hs, hsi, htab, hnq, ?_⟩
      have hibne : ib.wheres.isEmpty = false := by
        rw [hds]
        simp
      have hbne : b.wheres.isEmpty = false := by
        rw [hwemp]
        simp
      simp only [applyOp, applyOpInline, Builder.or_where, hbne, hibne, Bool.false_eq_true,
        if_neg, if_false, hgl]
      rw [hds, List.dropLast_concat, List.getLastD_concat, hvs, List.append_assoc]
      exact aligned_snoc b.wheres.dropLast rest ds'
        (b.wheres.getLast hne ++ " OR " ++ col ++ " " ++ cop ++ " ?") (ws0 ++ [v])
        (d0 ++ " OR " ++ col ++ " " ++ cop ++ " " ++ v.render) hal'
        (by simpa using hq.1) (by rw [hq.2, hfillp])
  | .op_where_in col vs, b, ib, h, hwf => by
    simp only [opWf] at hwf
    have hcol := noQb_eq hwf
    have hph := placeholders_fill vs
    have e1 : cntS (" IN (") = 0 := by decide
    have e2 : cntS (")") = 0 := by decide
    have hpre : cntS (col ++ " IN (") = 0 := by
      rw [cntS_append, hcol, e1]
    have hA : cntS (col ++ " IN (" ++ joinSep (", ") (vs.map (fun _ => "?"))) = vs.length := by
      rw [cntS_append, hpre, hph.1]
      omega
    exact inv_push b ib h
      (col ++ " IN (" ++ joinSep (", ") (vs.map (fun _ => "?")) ++ ")") vs
      (col ++ " IN (" ++ joinSep (", ") (vs.map Value.render) ++ ")")
      (by rw [cntS_append, hA, e2]; omega)
      (by rw [fillS_all_left _ (")") vs hA, fillS_noq _ _ _ hpre, hph.2])
  | .op_where_not_in col vs, b, ib, h, hwf => by
    simp only [opWf] at hwf
    have hcol := noQb_eq hwf
    have hph := placeholders_fill vs
    have e1 : cntS (" NOT IN (") = 0 := by decide
    have e2 : cntS (")") = 0 := by decide
    have hpre : cntS (col ++ " NOT IN (") = 0 := by
      rw [cntS_append, hcol, e1]
    have hA : cntS (col ++ " NOT IN (" ++ joinSep (", ") (vs.map (fun _ => "?"))) = vs.length := by
      rw [cntS_append, hpre, hph.1]
      omega
    exact inv_push b ib h
      (col ++ " NOT IN (" ++ joinSep (", ") (vs.map (fun _ => "?")) ++ ")") vs
      (col ++ " NOT IN (" ++ joinSep (", ") (vs.map Value.render) ++ ")")
      (by rw [cntS_append, hA, e2]; omega)
      (by rw [fillS_all_left _ (")") vs hA, fillS_noq _ _ _ hpre, hph.2])
  | .op_where_between col mn mx, b, ib, h, hwf => by
    simp only [opWf] at hwf
    have hcol := noQb_eq hwf
    have hsplit : (" BETWEEN ? AND ?" : String) = " BETWEEN " ++ ("?" ++ (" AND " ++ "?")) := by
      decide
    have e1 : cntS (" BETWEEN ? AND ?") = 2 := by decide
    exact inv_push b ib h (col ++ " BETWEEN ? AND ?") [mn, mx]
      (col ++ " BETWEEN " ++ mn.render ++ " AND " ++ mx.render)
      (by rw [cntS_append, hcol, e1]; rfl)
      (by
        rw [fillS_noq col _ _ hcol, hsplit, fillS_noq _ _ _ (by decide),
          fillS_qcons ((" AND ") ++ ("?")) mn [mx], fillS_noq _ _ _ (by decide), fillS_q]
        simp only [sAppend_assoc])
  | .op_where_null col, b, ib, h, hwf => by
    simp only [opWf] at hwf
    have hcol := noQb_eq hwf
    have hc : cntS (col ++ " IS NULL") = 0 := by
      rw [cntS_append, hcol]
      decide
    obtain ⟨hs, hsi, htab, hnq, hal⟩ := h
    refine ⟨hs, hsi, htab, hnq, ?_⟩
    have := aligned_snoc b.wheres b.argument_appliers ib.wheres
      (col ++ " IS NULL") [] (col ++ " IS NULL") hal (by simpa using hc)
      (fillS_vnil (col ++ " IS NULL"))
    simpa using this
  | .op_where_not_null col, b, ib, h, hwf => by
    simp only [opWf] at hwf
    have hcol := noQb_eq hwf
    have hc : cntS (col ++ " IS NOT NULL") = 0 := by
      rw [cntS_append, hcol]
      decide
    obtain ⟨hs, hsi, htab, hnq, hal⟩ := h
    refine ⟨hs, hsi, htab, hnq, ?_⟩
    have := aligned_snoc b.wheres b.argument_appliers ib.wheres
      (col ++ " IS NOT NULL") [] (col ++ " IS NOT NULL") hal (by simpa using hc)
      (fillS_vnil (col ++ " IS NOT NULL"))
    simpa using this
  | .op_where_exists t ops, b, ib, h, hwf => by
    simp only [opWf, Bool.and_eq_true] at hwf
    have ht := noQb_eq hwf.1
    have hsub : SimInv (applyOps (Builder.new t) ops) (applyOpsInline (Builder.new t) ops) :=
      inv_fold ops (Builder.new t) (Builder.new t) (inv_new t ht) hwf.2
    have hsql := inv_to_sql (applyOps (Builder.new t) ops) (applyOpsInline (Builder.new t) ops) hsub
    have e1 : cntS ("EXISTS (") = 0 := by decide
    have e2 : cntS (")") = 0 := by decide
    have hA : cntS ("EXISTS (" ++ (applyOps (Builder.new t) ops).to_sql) =
        (applyOps (Builder.new t) ops).argument_appliers.length := by
      rw [cntS_append, e1, hsql.1]
      omega
    exact inv_push b ib h
      ("EXISTS (" ++ (applyOps (Builder.new t) ops).to_sql ++ ")")
      (applyOps (Builder.new t) ops).argument_appliers
      ("EXISTS (" ++ (applyOpsInline (Builder.new t) ops).to_sql ++ ")")
      (by rw [cntS_append, hA, e2]; omega)
      (by rw [fillS_all_left _ (")") _ hA, fillS_noq _ _ _ e1, hsql.2])
  | .op_having col cop v, b, ib, h, hwf => by
    simp only [opWf, Bool.and_eq_true] at hwf
    have hcol := noQb_eq hwf.1
    have hcop := noQb_eq hwf.2
    have hsp : cntS (" ") = 0 := by decide
    have hhv : cntS ("HAVING ") = 0 := by decide
    have hp0 : cntS ("HAVING " ++ col ++ " " ++ cop) = 0 := by
      rw [cntS_append, cntS_append, cntS_append, hhv, hcol, hcop, hsp]
    have hq := clause_q ("HAVING " ++ col ++ " " ++ cop) [] v hp0
    exact inv_push b ib h ("HAVING " ++ col ++ " " ++ cop ++ " ?") [v]
      ("HAVING " ++ col ++ " " ++ cop ++ " " ++ v.render)
      (by simpa using hq.1)
      (by simpa [fillS_vnil] using hq.2)

theorem inv_fold : ∀ (ops : List Op) (b ib : Builder), SimInv b ib → opsWf ops = true →
    SimInv (applyOps b ops) (applyOpsInline ib ops)
  | [], _, _, h, _ => h
  | op :: rest, b, ib, h, hwf => by
    simp only [opsWf, Bool.and_eq_true] at hwf
    exact inv_fold rest (applyOp b op) (applyOpInline ib op) (inv_step op b ib h hwf.1) hwf.2

end

/-- Concrete call sequence exercising every predicate-adding call shape
(used to instantiate the placeholder/binder invariant). -/
def c1ops : List Op :=
  [Op.op_where_eq ("email") (.vStr ("a@x.com")),
   Op.op_where ("age") (">") (.vInt 18),
   Op.op_or_where ("active") ("=") (.vBool true),
   Op.op_where_in ("id") [.vInt 1, .vInt 2],
   Op.op_where_not_in ("status") [.vStr ("x")],
   Op.op_where_between ("score") (.vInt 1) (.vInt 5),
   Op.op_where_null ("deleted_at"),
   Op.op_where_not_null ("email"),
   Op.op_where_exists ("posts") [Op.op_where_eq ("user_id") (.vInt 7)],
   Op.op_having ("cnt") (">") (.vInt 0)]

/-- C1: for every builder built from `Builder::new` by any sequence of
`where`/`where_eq`/`or_where`/`where_in`/`where_not_in`/`where_between`/
`where_null`/`where_not_null`/`where_exists`/`having` calls (no
`where_raw`; identifiers and operators free of a literal `?` character),
the `?` placeholders of `to_sql()` match the deferred binders that
`build_arguments` (hence `get`/`first`) applies, in count and in
left-to-right order: the placeholder count equals the binder count, and
substituting the binders for the placeholders left to right yields exactly
the query with every value rendered in the position of its own call. -/
theorem C1_placeholder_binder_invariant (t : String) (ops : List Op)
    (ht : noQb t = true) (hw : opsWf ops = true) :
    cntS (applyOps (Builder.new t) ops).to_sql =
      ((applyOps (Builder.new t) ops).build_arguments).length ∧
    fillS (applyOps (Builder.new t) ops).to_sql
        ((applyOps (Builder.new t) ops).build_arguments) =
      (applyOpsInline (Builder.new t) ops).to_sql := by
  have h := inv_fold ops (Builder.new t) (Builder.new t) (inv_new t (noQb_eq ht)) hw
  exact inv_to_sql (applyOps (Builder.new t) ops) (applyOpsInline (Builder.new t) ops) h

/-- C1 witness: the invariant instantiated on a concrete query using every
call shape. -/
theorem C1_placeholder_binder_invariant_witness :
    noQb ("users") = true ∧ opsWf c1ops = true ∧
    (cntS (applyOps (Builder.new ("users")) c1ops).to_sql =
        ((applyOps (Builder.new ("users")) c1ops).build_arguments).length ∧
      fillS (applyOps (Builder.new ("users")) c1ops).to_sql
          ((applyOps (Builder.new ("users")) c1ops).build_arguments) =
        (applyOpsInline (Builder.new ("users")) c1ops).to_sql) :=
  ⟨by decide, by decide,
    C1_placeholder_binder_invariant ("users") c1ops (by decide) (by decide)⟩

/-!
C3 machinery: interleavings of join-adding calls with predicate-adding
calls.  A mixed call is either `join`/`left_join` (kind `true`/`false`)
or one of the predicate calls of `Op`.
-/

inductive MOp where
  | mjoin (inner : Bool) (table first cop second : String)
  | mpred (p : Op)

def applyMOp (b : Builder) : MOp → Builder
  | .mjoin true t f o s => b.join t f o s
  | .mjoin false t f o s => b.left_join t f o s
  | .mpred p => applyOp b p

def applyMOps (b : Builder) : List MOp → Builder
  | [] => b
  | m :: ms => applyMOps (applyMOp b m) ms

def mjoins : List MOp → List (Bool × String × String × String × String)
  | [] => []
  | .mjoin k t f o s :: ms => (k, t, f, o, s) :: mjoins ms
  | .mpred _ :: ms => mjoins ms

def mpreds : List MOp → List Op
  | [] => []
  | .mjoin _ _ _ _ _ :: ms => mpreds ms
  | .mpred p :: ms => p :: mpreds ms

def applyJoins (b : Builder) : List (Bool × String × String × String × String) → Builder
  | [] => b
  | (true, t, f, o, s) :: js => applyJoins (b.join t f o s) js
  | (false, t, f, o, s) :: js => applyJoins (b.left_join t f o s) js

theorem join_pred_comm (b : Builder) (t f o s : String) (p : Op) :
    applyOp (b.join t f o s) p = (applyOp b p).join t f o s := by
  cases p <;> rfl

theorem left_join_pred_comm (b : Builder) (t f o s : String) (p : Op) :
    applyOp (b.left_join t f o s) p = (applyOp b p).left_join t f o s := by
  cases p <;> rfl

theorem applyJoins_applyOp_comm :
    ∀ (js : List (Bool × String × String × String × String)) (b : Builder) (p : Op),
    applyJoins (applyOp b p) js = applyOp (applyJoins b js) p := by
  intro js
  induction js with
  | nil => intro b p; rfl
  | cons j js ih =>
    intro b p
    obtain ⟨k, t, f, o, s⟩ := j
    cases k
    · show applyJoins (applyOp b p |>.left_join t f o s) js = _
      rw [← left_join_pred_comm, ih]
      rfl
    · show applyJoins (applyOp b p |>.join t f o s) js = _
      rw [← join_pred_comm, ih]
      rfl

theorem applyMOps_reorder : ∀ (ms : List MOp) (b : Builder),
    applyMOps b ms = applyOps (applyJoins b (mjoins ms)) (mpreds ms) := by
  intro ms
  induction ms with
  | nil => intro b; rfl
  | cons m ms ih =>
    intro b
    cases m with
    | mjoin k t f o s =>
      cases k
      · show applyMOps (b.left_join t f o s) ms = _
        rw [ih]
        rfl
      · show applyMOps (b.join t f o s) ms = _
        rw [ih]
        rfl
    | mpred p =>
      show applyMOps (applyOp b p) ms = applyOps (applyJoins b (mjoins ms)) (p :: mpreds ms)
      rw [ih]
      show applyOps (applyJoins (applyOp b p) (mjoins ms)) (mpreds ms) =
        applyOps (applyOp (applyJoins b (mjoins ms)) p) (mpreds ms)
      rw [applyJoins_applyOp_comm]

theorem sAppend_empty (a : String) : a ++ "" = a := by
  cases a with
  | mk l =>
    show String.mk (l ++ []) = String.mk l
    rw [List.append_nil]

theorem sEmpty_append (a : String) : "" ++ a = a := by
  cases a with
  | mk l =>
    show String.mk ([] ++ l) = String.mk l
    rw [List.nil_append]

/-- C3: `to_sql()` always renders the fixed clause order `SELECT … FROM
table [JOINs] [WHERE …] [ORDER BY …] [LIMIT n] [OFFSET n]` (each section
present exactly when its list/option is non-empty), and join-adding calls
commute past every predicate-adding call — for any interleaving of
`join`/`left_join` with predicate calls the result equals hoisting all the
joins first — so joins always appear before the WHERE section regardless
of call order.  `to_sql` is a pure function of the builder value in this
embedding (it takes the builder immutably), so repeated calls agree by
construction. -/
theorem C3_clause_order_and_join_hoisting :
    (∀ b : Builder, b.to_sql =
      "SELECT " ++ joinSep (", ") b.selects ++ " FROM " ++ b.table ++
        (if b.joins.isEmpty then "" else " " ++ joinSep (" ") b.joins) ++
        (if b.wheres.isEmpty then "" else " WHERE " ++ joinSep (" AND ") b.wheres) ++
        (if b.order.isEmpty then "" else " ORDER BY " ++ joinSep (", ") b.order) ++
        (match b.limitv with
          | some l => " LIMIT " ++ toString l
          | none => "") ++
        (match b.offsetv with
          | some o => " OFFSET " ++ toString o
          | none => "")) ∧
    (∀ (b : Builder) (t f o s : String) (p : Op),
      applyOp (b.join t f o s) p = (applyOp b p).join t f o s) ∧
    (∀ (b : Builder) (t f o s : String) (p : Op),
      applyOp (b.left_join t f o s) p = (applyOp b p).left_join t f o s) ∧
    (∀ (ms : List MOp) (b : Builder),
      applyMOps b ms = applyOps (applyJoins b (mjoins ms)) (mpreds ms)) := by
  refine ⟨?_, join_pred_comm, left_join_pred_comm, applyMOps_reorder⟩
  intro b
  simp only [Builder.to_sql]
  rcases hl : b.limitv with _ | l <;> rcases ho : b.offsetv with _ | o <;>
    by_cases hj : b.joins.isEmpty <;> by_cases hw : b.wheres.isEmpty <;>
    by_cases hor : b.order.isEmpty <;>
    simp [hl, ho, hj, hw, hor, sAppend_empty, sEmpty_append, sAppend_assoc]

/-- Entity metadata of a soft-deleting entity, for witnesses. -/
def softMeta : OrbitMeta := { table_name := "users", soft_deletes := true }

/-- Entity metadata with the trait defaults (no soft deletes). -/
def hardMeta : OrbitMeta := { table_name := "logs" }

/-- C6: when `SOFT_DELETES` is enabled, `query()` returns a builder already
carrying the single predicate `deleted_at IS NULL` (so its rendered query
filters out rows with `deleted_at` set), `with_trashed()` returns a builder
with no predicate at all, and when the flag is disabled `query()` is the
unfiltered fresh builder. -/
theorem C6_soft_delete_query_prefilter (m : OrbitMeta) :
    (m.soft_deletes = true →
      m.query.wheres = ["deleted_at IS NULL"] ∧
      m.query.to_sql = "SELECT * FROM " ++ m.table_name ++ " WHERE deleted_at IS NULL") ∧
    m.with_trashed.wheres = [] ∧
    (m.soft_deletes = false → m.query = Builder.new m.table_name) := by
  refine ⟨?_, rfl, ?_⟩
  · intro hsoft
    constructor
    · simp [OrbitMeta.query, hsoft, Builder.where_null, Builder.new]
    · have e1 : ("SELECT * FROM " : String) = "SELECT " ++ "*" ++ " FROM " := by decide
      have e2 : (" WHERE deleted_at IS NULL" : String) = " WHERE " ++ "deleted_at IS NULL" := by
        decide
      rw [e1, e2]
      simp [OrbitMeta.query, hsoft, Builder.where_null, Builder.new, Builder.to_sql, joinSep,
        sAppend_assoc]
  · intro hsoft
    simp [OrbitMeta.query, hsoft]

/-- C6 witness: the soft-deleting entity returns the pre-filtered builder,
the default entity does not. -/
theorem C6_soft_delete_query_prefilter_witness :
    softMeta.soft_deletes = true ∧
    softMeta.query.wheres = ["deleted_at IS NULL"] ∧
    softMeta.query.to_sql = "SELECT * FROM " ++ softMeta.table_name ++ " WHERE deleted_at IS NULL" ∧
    softMeta.with_trashed.wheres = [] ∧
    hardMeta.soft_deletes = false ∧
    hardMeta.query = Builder.new hardMeta.table_name :=
  ⟨by decide,
    ((C6_soft_delete_query_prefilter softMeta).1 (by decide)).1,
    ((C6_soft_delete_query_prefilter softMeta).1 (by decide)).2,
    (C6_soft_delete_query_prefilter softMeta).2.1,
    by decide,
    (C6_soft_delete_query_prefilter hardMeta).2.2 (by decide)⟩

/-- C7: `or_where` on a builder with at least one predicate pops the most
recent clause and re-pushes it with ` OR col op ?` spliced on (the clause
count does not grow); called first it behaves exactly like `where`, with no
error; in both cases exactly one binder is appended at the end. -/
theorem C7_or_where_splices_into_last_predicate (b : Builder) (col cop : String) (v : Value) :
    (b.wheres ≠ [] →
      (b.or_where col cop v).wheres =
        b.wheres.dropLast ++ [b.wheres.getLastD ("") ++ " OR " ++ col ++ " " ++ cop ++ " ?"] ∧
      (b.or_where col cop v).wheres.length = b.wheres.length) ∧
    (b.wheres = [] → b.or_where col cop v = b.where_ col cop v) ∧
    (b.or_where col cop v).argument_appliers = b.argument_appliers ++ [v] := by
  refine ⟨?_, ?_, ?_⟩
  · intro hne
    have hbe : b.wheres.isEmpty = false := by
      cases hwl : b.wheres
      · exact absurd hwl hne
      · rfl
    constructor
    · simp [Builder.or_where, hbe]
    · simp only [Builder.or_where, hbe, Bool.false_eq_true, if_false,
        List.length_append, List.length_dropLast, List.length_cons, List.length_nil]
      have : 0 < b.wheres.length := List.length_pos.mpr hne
      omega
  · intro he
    simp [Builder.or_where, Builder.where_, he]
  · simp [Builder.or_where]

/-- C7 witness: splicing on a one-predicate builder, and the first-call
fallback to `where`. -/
theorem C7_or_where_splices_into_last_predicate_witness :
    ((Builder.new ("users")).where_eq ("a") (.vInt 1)).wheres ≠ [] ∧
    (((Builder.new ("users")).where_eq ("a") (.vInt 1)).or_where ("b") ("=") (.vInt 2)).wheres =
      ((Builder.new ("users")).where_eq ("a") (.vInt 1)).wheres.dropLast ++
        [((Builder.new ("users")).where_eq ("a") (.vInt 1)).wheres.getLastD ("") ++
          " OR " ++ ("b") ++ " " ++ ("=") ++ " ?"] ∧
    ((Builder.new ("t")).wheres = [] ∧
      (Builder.new ("t")).or_where ("c") (">") (.vInt 3) =
        (Builder.new ("t")).where_ ("c") (">") (.vInt 3)) ∧
    (((Builder.new ("users")).where_eq ("a") (.vInt 1)).or_where ("b") ("=") (.vInt 2)).argument_appliers =
      ((Builder.new ("users")).where_eq ("a") (.vInt 1)).argument_appliers ++ [.vInt 2] :=
  ⟨by decide,
    ((C7_or_where_splices_into_last_predicate ((Builder.new ("users")).where_eq ("a") (.vInt 1))
        ("b") ("=") (.vInt 2)).1 (by decide)).1,
    ⟨by decide,
      (C7_or_where_splices_into_last_predicate (Builder.new ("t")) ("c") (">") (.vInt 3)).2.1
        (by decide)⟩,
    (C7_or_where_splices_into_last_predicate ((Builder.new ("users")).where_eq ("a") (.vInt 1))
        ("b") ("=") (.vInt 2)).2.2⟩

/-- C8: `where_exists(subquery)` appends exactly the predicate
`EXISTS (S)` with `S` the subquery's `to_sql()` text, and queues the
subquery's deferred binders after all binders already queued on the outer
builder, preserving their relative order. -/
theorem C8_where_exists_embeds_subquery (b sub : Builder) :
    (b.where_exists sub).wheres = b.wheres ++ ["EXISTS (" ++ sub.to_sql ++ ")"] ∧
    (b.where_exists sub).build_arguments = b.build_arguments ++ sub.build_arguments :=
  ⟨rfl, rfl⟩

/-- Related-entity metadata for the many-to-many scenario (`roles`, primary
key `id`, no soft deletes — the trait defaults). -/
def rolesMeta : OrbitMeta := { table_name := "roles" }

/-- C9: `belongs_to_many::<R>(pivot, fk, related_key)` on an owner with id
`v` builds a query selecting `R::table_name().*`, inner-joining the pivot
on `R::table_name().R::primary_key() = pivot.related_key` and filtering by
`pivot.fk = ?` with `v` as the single queued binder; concretely, for a user
with id 7 and `(role_user, user_id, role_id)` it renders the join on
`role_user` filtered by `role_user.user_id = ?` with 7 bound. -/
theorem C9_belongs_to_many_join_shape (rmeta : OrbitMeta) (v : Int)
    (pivot fk rk : String) (h : rmeta.soft_deletes = false) :
    ((rmeta.belongs_to_many v pivot fk rk).selects = [rmeta.table_name ++ ".*"] ∧
     (rmeta.belongs_to_many v pivot fk rk).joins =
       ["INNER JOIN " ++ pivot ++ " ON " ++ (rmeta.table_name ++ "." ++ rmeta.primary_key) ++
         " " ++ ("=") ++ " " ++ (pivot ++ "." ++ rk)] ∧
     (rmeta.belongs_to_many v pivot fk rk).wheres =
       [(pivot ++ "." ++ fk) ++ " " ++ ("=") ++ " ?"] ∧
     (rmeta.belongs_to_many v pivot fk rk).build_arguments = [.vInt v]) ∧
    ((rolesMeta.belongs_to_many 7 ("role_user") ("user_id") ("role_id")).to_sql =
       "SELECT roles.* FROM roles INNER JOIN role_user ON roles.id = role_user.role_id WHERE role_user.user_id = ?" ∧
     (rolesMeta.belongs_to_many 7 ("role_user") ("user_id") ("role_id")).build_arguments =
       [.vInt 7]) := by
  refine ⟨⟨?_, ?_, ?_, ?_⟩, by decide, by decide⟩ <;>
    simp [OrbitMeta.belongs_to_many, OrbitMeta.query, h, Builder.select, Builder.join,
      Builder.where_eq, Builder.where_, Builder.new, Builder.build_arguments]

/-- C9 witness: the general shape instantiated on the `roles`/`role_user`
scenario. -/
theorem C9_belongs_to_many_join_shape_witness :
    rolesMeta.soft_deletes = false ∧
    (rolesMeta.belongs_to_many 7 ("role_user") ("user_id") ("role_id")).selects =
      [rolesMeta.table_name ++ ".*"] ∧
    (rolesMeta.belongs_to_many 7 ("role_user") ("user_id") ("role_id")).build_arguments =
      [.vInt 7] :=
  ⟨by decide,
    ((C9_belongs_to_many_join_shape rolesMeta 7 ("role_user") ("user_id") ("role_id")
        (by decide)).1).1,
    ((C9_belongs_to_many_join_shape rolesMeta 7 ("role_user") ("user_id") ("role_id")
        (by decide)).1).2.2.2⟩

/-- C10: `select(columns)` overwrites the whole projection list, so
`distinct()` followed by `select(columns)` yields the very same builder as
`select(columns)` alone — the `DISTINCT` prefix is silently discarded —
while `distinct()` with no later `select()` is preserved in the rendered
SQL. -/
theorem C10_select_discards_distinct (b : Builder) (cols : List String) (t : String) :
    (b.distinct).select cols = b.select cols ∧
    ((b.distinct).select cols).to_sql = (b.select cols).to_sql ∧
    ((Builder.new t).distinct).to_sql = "SELECT DISTINCT * FROM " ++ t := by
  have h1 : (b.distinct).select cols = b.select cols := by
    cases b with
    | mk tb sel jo wh oro li ofs ar =>
      cases sel with
      | nil => rfl
      | cons f r =>
        by_cases hst : f.startsWith ("DISTINCT") <;>
          simp [Builder.distinct, Builder.select, hst]
  refine ⟨h1, congrArg Builder.to_sql h1, ?_⟩
  have e : ("SELECT DISTINCT * FROM " : String) = "SELECT " ++ "DISTINCT *" ++ " FROM " := by
    decide
  have hsw : ("*").startsWith ("DISTINCT") = false := by decide
  rw [e]
  simp [Builder.distinct, Builder.new, Builder.to_sql, joinSep, hsw, sAppend_assoc]

/-- C2 counterexample: two expected failure paths panic instead of
returning a typed error value.  The payload `5` (serializable, but not a
column→scalar map) drives `Orbit::create`/`update` into the
`.expect("Data must be an object")` panic — modelled by `none` — instead
of a serialization error; and the Migrator resolves its default connection
with `.expect("No default connection")` / `.unwrap()` (ensure_migration_table,
run, rollback), so a missing default connection panics rather than
surfacing the typed `Configuration` error. -/
theorem C2_expected_failure_paths_panic :
    OrbitMeta.create_core hardMeta ("2024-01-01 00:00:00") (Json.jNum 5) = none ∧
    OrbitMeta.update_core hardMeta 1 ("2024-01-01 00:00:00") (Json.jNum 5) = none ∧
    Migrator.default_connection_core (none : Option Unit) = none :=
  ⟨rfl, rfl, rfl⟩

/-- C2 (amended): Builder terminals and entity operations resolve their
connection with `ok_or`, so an unresolved connection surfaces as the typed
`Configuration` error, `find_or_fail` surfaces zero rows as the typed
`RowNotFound`, and object payloads never hit the panic path of
`create`/`update`.  But two expected failure paths panic instead of
returning a typed result: a `create()`/`update()` payload that does not
serialize to a JSON object (`unwrap`/`expect`, modelled `none`), and a
missing default connection in the Migrator, whose
`ensure_migration_table`/`run`/`rollback` use `.expect`/`.unwrap` and have
no typed error for that condition (modelled `none`). -/
theorem C2_amended_typed_errors_except_payload_panic :
    (∀ (m : OrbitMeta) (now : String) (d : Json),
      (d.is_object = true → ∃ r, m.create_core now d = some r) ∧
      (d.is_object = false → m.create_core now d = none)) ∧
    (∀ (m : OrbitMeta) (i : Int) (now : String) (d : Json),
      (d.is_object = true → ∃ r, m.update_core i now d = some r) ∧
      (d.is_object = false → m.update_core i now d = none)) ∧
    (∀ (α : Type) (x : α), find_or_fail_core (some x) = Except.ok x) ∧
    (∀ α : Type, find_or_fail_core (none : Option α) = Except.error DbErr.rowNotFound) ∧
    (∀ (α : Type) (p : α), resolve_connection_core (some p) = Except.ok p) ∧
    (∀ α : Type, resolve_connection_core (none : Option α) =
      Except.error (DbErr.configuration ("No database connection found"))) ∧
    (∀ (α : Type) (p : α), Migrator.default_connection_core (some p) = some (Except.ok p)) ∧
    (∀ α : Type, Migrator.default_connection_core (none : Option α) = none) := by
  refine ⟨?_, ?_, fun α x => rfl, fun α => rfl, fun α p => rfl, fun α => rfl,
    fun α p => rfl, fun α => rfl⟩
  · intro m now d
    constructor
    · intro hobj
      cases d <;> simp [Json.is_object] at hobj
      by_cases ht : m.timestamps <;> simp [OrbitMeta.create_core, ht]
    · intro hobj
      cases d <;> simp [Json.is_object] at hobj <;> rfl
  · intro m i now d
    constructor
    · intro hobj
      cases d <;> simp [Json.is_object] at hobj
      by_cases ht : m.timestamps <;> simp [OrbitMeta.update_core, ht]
    · intro hobj
      cases d <;> simp [Json.is_object] at hobj <;> rfl

/-- C2 witness: an object payload takes the success path, a non-object
payload takes the (panic) `none` path. -/
theorem C2_amended_typed_errors_witness :
    (Json.jObj [(("name"), Json.jStr ("bob"))]).is_object = true ∧
    (∃ r, OrbitMeta.create_core hardMeta ("2024") (Json.jObj [(("name"), Json.jStr ("bob"))]) =
      some r) ∧
    (Json.jStr ("x")).is_object = false ∧
    OrbitMeta.update_core hardMeta 1 ("2024") (Json.jStr ("x")) = none :=
  ⟨rfl,
    ((C2_amended_typed_errors_except_payload_panic.1 hardMeta ("2024")
        (Json.jObj [(("name"), Json.jStr ("bob"))]))).1 rfl,
    rfl,
    ((C2_amended_typed_errors_except_payload_panic.2.1 hardMeta 1 ("2024")
        (Json.jStr ("x")))).2 rfl⟩

theorem rollback_loop_warnings : ∀ (names : List String) (files : List MigrationFile)
    (st : RollbackState),
    (names.foldl (rollback_step files) st).warnings =
      st.warnings ++ names.filter (fun n => (files.find? (fun f => f.name == n)).isNone) := by
  intro names
  induction names with
  | nil => intro files st; simp
  | cons n names ih =>
    intro files st
    simp only [List.foldl_cons]
    rw [ih]
    cases hfind : files.find? (fun f => f.name == n) with
    | some mfile => simp [rollback_step, hfind]
    | none => simp [rollback_step, hfind]

theorem rollback_loop_records : ∀ (names : List String) (files : List MigrationFile)
    (st : RollbackState),
    (names.foldl (rollback_step files) st).records =
      st.records.filter (fun r =>
        !(names.contains r.migration && (files.find? (fun f => f.name == r.migration)).isSome)) := by
  intro names
  induction names with
  | nil => intro files st; simp
  | cons n names ih =>
    intro files st
    simp only [List.foldl_cons]
    rw [ih]
    cases hfind : files.find? (fun f => f.name == n) with
    | some mfile =>
      simp only [rollback_step, hfind]
      rw [List.filter_filter]
      apply List.filter_congr
      intro r _
      by_cases hrn : r.migration = n
      · simp [hrn, hfind]
      · simp [hrn, List.contains_cons]
    | none =>
      simp only [rollback_step, hfind]
      apply List.filter_congr
      intro r _
      by_cases hrn : r.migration = n
      · simp [hrn, hfind]
      · simp [hrn, List.contains_cons]

/-- C4 counterexample: one tracking row `("a", batch 1)` whose migration
file is absent from disk: `rollback` prints the warning but keeps the
tracking row — it is not removed, so rollback does not remove all rows of
the highest batch. -/
theorem C4_missing_file_row_is_kept :
    (Migrator.rollback_core [{ migration := "a", batch := 1 }] []).records =
      [{ migration := "a", batch := 1 }] ∧
    (Migrator.rollback_core [{ migration := "a", batch := 1 }] []).warnings = ["a"] ∧
    (Migrator.rollback_core [{ migration := "a", batch := 1 }] []).downs = [] := by
  refine ⟨?_, ?_, ?_⟩ <;> decide

/-- C4 (amended): provided the recorded migration names are distinct,
`rollback` removes exactly the tracking rows of the highest batch whose
migration file is present on disk — rows of other batches are untouched —
while a highest-batch row whose file is missing produces a warning and its
tracking row is retained, not removed. -/
theorem C4_rollback_highest_batch_present_files (records : List MigrationRecord)
    (files : List MigrationFile) (batch : Int) (hmax : maxBatch records = some batch)
    (hnd : (records.map (fun r => r.migration)).Nodup) :
    (Migrator.rollback_core records files).records =
      records.filter (fun r =>
        !((r.batch == batch) && (files.find? (fun f => f.name == r.migration)).isSome)) ∧
    (Migrator.rollback_core records files).warnings =
      (((records.filter (fun r => r.batch == batch)).map (fun r => r.migration)).reverse).filter
        (fun n => (files.find? (fun f => f.name == n)).isNone) := by
  have hinj := List.inj_on_of_nodup_map hnd
  constructor
  · simp only [Migrator.rollback_core, hmax]
    rw [rollback_loop_records]
    apply List.filter_congr
    intro r hr
    have hmem :
        ((((records.filter (fun r => r.batch == batch)).map (fun r => r.migration)).reverse).contains
          r.migration) = (r.batch == batch) := by
      rcases hb : r.batch == batch with _ | _
      · rw [Bool.eq_false_iff]
        intro hcon
        have hm : r.migration ∈
            ((records.filter (fun x => x.batch == batch)).map (fun x => x.migration)).reverse := by
          simpa [List.elem_iff] using hcon
        rw [List.mem_reverse, List.mem_map] at hm
        obtain ⟨r2, hr2, hr2m⟩ := hm
        rw [List.mem_filter] at hr2
        have := hinj hr2.1 hr hr2m
        subst this
        rw [hr2.2] at hb
        exact Bool.true_eq_false.mp hb
      · have hm : r.migration ∈
            ((records.filter (fun x => x.batch == batch)).map (fun x => x.migration)).reverse := by
          rw [List.mem_reverse, List.mem_map]
          exact ⟨r, List.mem_filter.mpr ⟨hr, hb⟩, rfl⟩
        simpa [List.elem_iff] using hm
    rw [hmem]
  · simp only [Migrator.rollback_core, hmax]
    rw [rollback_loop_warnings]
    simp

/-- Tracking-table state for the rollback witness: batch 2 is the highest;
`b` has its file on disk, `c` does not. -/
def c4records : List MigrationRecord :=
  [{ migration := "a", batch := 1 }, { migration := "b", batch := 2 },
   { migration := "c", batch := 2 }]

/-- Migration files on disk for the rollback witness. -/
def c4files : List MigrationFile :=
  [{ name := "b", up_sql := "CREATE TABLE b (id INT)", down_sql := "DROP TABLE b" }]

/-- C4 witness: rollback removes the present-file highest-batch row `b`,
keeps the missing-file highest-batch row `c` with a warning, and never
touches the batch-1 row `a`. -/
theorem C4_rollback_highest_batch_witness :
    maxBatch c4records = some 2 ∧
    (c4records.map (fun r => r.migration)).Nodup ∧
    ((Migrator.rollback_core c4records c4files).records =
      c4records.filter (fun r =>
        !((r.batch == 2) && (c4files.find? (fun f => f.name == r.migration)).isSome)) ∧
     (Migrator.rollback_core c4records c4files).warnings =
      (((c4records.filter (fun r => r.batch == 2)).map (fun r => r.migration)).reverse).filter
        (fun n => (c4files.find? (fun f => f.name == n)).isNone)) :=
  ⟨by decide, by decide,
    C4_rollback_highest_batch_present_files c4records c4files 2 (by decide) (by decide)⟩


/-- Substring occurrence test used to state schema facts about DDL text. -/
def hasSubstr (hay pat : List Char) : Bool :=
  match hay with
  | [] => pat.isEmpty
  | _ :: t => pat.isPrefixOf hay || hasSubstr t pat

/-- C5 counterexample: the DDL actually executed by
`ensure_migration_table` declares `migration VARCHAR(255) NOT NULL` with no
UNIQUE constraint anywhere — the claimed uniqueness of the migration-name
column does not exist in the created schema. -/
theorem C5_ddl_has_no_unique_constraint :
    hasSubstr migration_table_ddl.toList (("UNIQUE").toList) = false := by
  decide

/-- C5 (amended): when the `SHOW TABLES` probe finds no tracking table,
`ensure_migration_table` creates `migrations(id BIGINT AUTO_INCREMENT
PRIMARY KEY, migration VARCHAR(255) NOT NULL, batch INT NOT NULL)` — an
autoincrement primary key, a NOT NULL migration-name column *without* a
UNIQUE constraint, and a NOT NULL integer batch column; when the table
exists nothing is executed. -/
theorem C5_tracking_table_schema :
    Migrator.ensure_migration_table_core false = some migration_table_ddl ∧
    Migrator.ensure_migration_table_core true = none ∧
    hasSubstr migration_table_ddl.toList (("id BIGINT AUTO_INCREMENT PRIMARY KEY").toList) = true ∧
    hasSubstr migration_table_ddl.toList (("migration VARCHAR(255) NOT NULL").toList) = true ∧
    hasSubstr migration_table_ddl.toList (("batch INT NOT NULL").toList) = true ∧
    hasSubstr migration_table_ddl.toList (("UNIQUE").toList) = false := by
  refine ⟨rfl, rfl, ?_, ?_, ?_, ?_⟩ <;> decide
